import Mathlib

/-!
Shallow embedding of the Notes_Organizer repository (OCR → subject
classification → remote-storage organization pipeline).

Python strings are modelled as `List Char` wherever character-level
operations occur; scalar string fields that are only compared for
equality (subjects, statuses, folder names) use Lean `String`.
Python floats carrying exact integer arithmetic are modelled as `ℚ`.
External collaborators (the OCR engine, the zero-shot model, the remote
storage service, the filesystem) are modelled as explicit outcome types
or oracle functions; the embedded definitions reproduce the repository's
orchestration code over those oracles.
-/

namespace NotesOrg

/-! ### Python string primitives (ASCII model)

`str.split()` with no argument splits on runs of whitespace and drops
empty fragments; `str.strip()` removes leading/trailing whitespace;
`str.isprintable()` is modelled on the ASCII range (the OCR character
whitelist in the source is pure ASCII). -/

/-- Python whitespace for `str.split()` / `str.strip()` (ASCII part):
space, tab, newline, carriage return, vertical tab, form feed. -/
def pyIsSpace (c : Char) : Bool :=
  c = ' ' || c = '\t' || c = '\n' || c = '\r' || c = Char.ofNat 11 || c = Char.ofNat 12

/-- Python `s.split()`: split on whitespace runs, dropping empty pieces. -/
def pySplit (s : List Char) : List (List Char) :=
  (s.splitOnP pyIsSpace).filter (fun w => w ≠ [])

/-- Python `' '.join(ws)`. -/
def joinWithSpace (ws : List (List Char)) : List Char :=
  List.intercalate [' '] ws

/-- Python `s.strip()` with no argument: drop whitespace at both ends. -/
def pyStrip (s : List Char) : List Char :=
  ((s.dropWhile pyIsSpace).reverse.dropWhile pyIsSpace).reverse

/-- Python `c.isprintable()` restricted to the ASCII plane:
printable iff in the inclusive range U+0020 .. U+007E. -/
def pyIsPrintable (c : Char) : Bool :=
  0x20 ≤ c.toNat && c.toNat ≤ 0x7e

/-! ### OCRProcessor (src/ocr_processor.py) -/

/-- `OCRProcessor.clean_text`:
collapse whitespace, replace `|` with `I`, replace `0` with `O`,
drop non-printable characters, strip. -/
def clean_text (text : List Char) : List Char :=
  let t1 := joinWithSpace (pySplit text)
  let t2 := t1.map (fun c => if c = '|' then 'I' else c)
  let t3 := t2.map (fun c => if c = '0' then 'O' else c)
  let t4 := t3.filter pyIsPrintable
  pyStrip t4

/-- Outcome of the engine side of `OCRProcessor.extract_text` on one image:
`unreadable` models `cv2.imread` returning `None` (missing or undecodable
file, which the code converts to a raised-then-caught `ValueError`);
`failure` models any other exception from preprocessing or the engine;
`ok raw` carries the raw text returned by `pytesseract.image_to_string`. -/
inductive ExtractOutcome where
  | unreadable
  | failure
  | ok (raw : List Char)
deriving DecidableEq, Repr

/-- `OCRProcessor.extract_text`: on any failure the exception handler
returns the empty string; on success the raw text is cleaned. -/
def extract_text : ExtractOutcome → List Char
  | .unreadable => []
  | .failure => []
  | .ok raw => clean_text raw

/-- Outcome of the engine side of `OCRProcessor.get_text_confidence`:
`unreadable` models `cv2.imread` returning `None`; `failure` models an
exception; `ok confs` carries the per-token `data['conf']` integers
returned by `pytesseract.image_to_data`. -/
inductive ConfOutcome where
  | unreadable
  | failure
  | ok (confs : List Int)
deriving DecidableEq, Repr

/-- `OCRProcessor.get_text_confidence`: keep the strictly positive
per-token confidences (`int(conf) > 0`); return their mean if there are
any, else `0.0`; return `0.0` when the image is unreadable or on any
exception. -/
def get_text_confidence : ConfOutcome → ℚ
  | .unreadable => 0
  | .failure => 0
  | .ok confs =>
    let confidences := confs.filter (fun c => 0 < c)
    if confidences ≠ [] then
      ((confidences.sum : ℤ) : ℚ) / (confidences.length : ℚ)
    else 0

/-! ### TextClassifier (src/text_classifier.py) -/

/-- Character class kept by `TextClassifier._preprocess_text`'s
substitution: word characters (`\w`, ASCII model: letters, digits,
underscore), whitespace, and the punctuation kept by the pattern. -/
def keptByClassifierSub (c : Char) : Bool :=
  c.isAlphanum || c = '_' || pyIsSpace c ||
    c = '.' || c = ',' || c = '!' || c = '?' || c = ';' || c = ':' ||
    c = '-' || c = '(' || c = ')' || c = '[' || c = ']' || c = '{' || c = '}'

/-- `TextClassifier._preprocess_text`: collapse whitespace, replace every
character outside the allow-list with a space, lowercase, drop words of
length ≤ 2, rejoin with single spaces. -/
def preprocess_text (text : List Char) : List Char :=
  let t1 := joinWithSpace (pySplit text)
  let t2 := t1.map (fun c => if keptByClassifierSub c then c else ' ')
  let t3 := t2.map Char.toLower
  let ws := (pySplit t3).filter (fun w => 2 < w.length)
  joinWithSpace ws

/-- Outcome of the zero-shot pipeline call inside
`TextClassifier.classify_text`: `failure` models an exception from the
model (caught by the method's handler); `ok lbl s` carries the rank-0
label `result['labels'][0]` and its score `result['scores'][0]`. -/
inductive ModelOutcome where
  | failure
  | ok (label : String) (score : ℚ)
deriving DecidableEq, Repr

/-- `TextClassifier.classify_text`. `loaded` models `self.classifier`
being non-`None` (model initialisation succeeded). Short-circuit when the
model is absent or the text strips to empty; short-circuit when the
preprocessed text has fewer than 10 characters; otherwise consult the
model, accepting the top label iff its score reaches the threshold. -/
def classify_text (loaded : Bool) (text : List Char) (confidence_threshold : ℚ)
    (model : ModelOutcome) : String × ℚ :=
  if !loaded || pyStrip text = [] then ("unknown", 0)
  else
    let cleaned_text := preprocess_text text
    if cleaned_text.length < 10 then ("unknown", 0)
    else
      match model with
      | .failure => ("unknown", 0)
      | .ok best_label best_score =>
        if best_score ≥ confidence_threshold then (best_label, best_score)
        else ("unknown", best_score)

/-! ### NotesOrganizer (src/notes_organizer.py) -/

/-- One per-image processing record produced by
`NotesOrganizer.process_single_image`. -/
structure ProcessingResult where
  image_path : String
  text : List Char
  subject : String
  confidence : ℚ
  ocr_confidence : ℚ
  status : String
deriving DecidableEq, Repr

/-- `NotesOrganizer.process_single_image`, with the collaborator calls
(`extract_text`, `get_text_confidence`, `classify_text`) abstracted into
their results: `extracted` is the text extraction result, `ocr_conf` the
OCR confidence that would be computed, `cls` the classification result.
If the extracted text strips to empty, the confidence and classification
calls are not made and the no-text record is returned. -/
def process_single_image (image_path : String) (extracted : List Char)
    (ocr_conf : ℚ) (cls : String × ℚ) : ProcessingResult :=
  if pyStrip extracted = [] then
    { image_path := image_path, text := [], subject := "unknown",
      confidence := 0, ocr_confidence := 0, status := "no_text_extracted" }
  else
    { image_path := image_path, text := extracted, subject := cls.1,
      confidence := cls.2, ocr_confidence := ocr_conf, status := "success" }

/-- Summary dictionary returned by `NotesOrganizer.get_processing_summary`.
`subject_distribution` is the insertion-ordered count dictionary. -/
structure Summary where
  total_images : Nat
  successful_extractions : Nat
  successful_classifications : Nat
  subject_distribution : List (String × Nat)
  average_ocr_confidence : ℚ
  average_classification_confidence : ℚ
deriving DecidableEq, Repr

/-- `subject_counts[subject] = subject_counts.get(subject, 0) + 1` applied
to an insertion-ordered association list. -/
def bumpCount : List (String × Nat) → String → List (String × Nat)
  | [], s => [(s, 1)]
  | (k, v) :: rest, s =>
    if k = s then (k, v + 1) :: rest else (k, v) :: bumpCount rest s

/-- `NotesOrganizer.get_processing_summary`. -/
def get_processing_summary (processing_results : List ProcessingResult) : Summary :=
  let total_images := processing_results.length
  { total_images := total_images
    successful_extractions :=
      (processing_results.filter (fun r => r.status = "success")).length
    successful_classifications :=
      (processing_results.filter (fun r => r.subject ≠ "unknown")).length
    subject_distribution :=
      processing_results.foldl (fun m r => bumpCount m r.subject) []
    average_ocr_confidence :=
      if 0 < total_images then
        (processing_results.map (fun r => r.ocr_confidence)).sum / (total_images : ℚ)
      else 0
    average_classification_confidence :=
      if 0 < total_images then
        (processing_results.map (fun r => r.confidence)).sum / (total_images : ℚ)
      else 0 }

/-! ### Directory enumeration (`NotesOrganizer.process_directory`)

`glob.glob(os.path.join(dir, pattern))` is modelled at the filename level
over the directory's listing: a name matches iff it matches the shell
pattern (here only `*` wildcards and literal characters occur), with the
`glob` rule that a name starting with a dot is only matched by a pattern
starting with a dot. Matching on the POSIX filesystem is case-sensitive. -/

/-- Shell-pattern matching for patterns built from literals and `*`
(the only constructs occurring in the extension patterns): `*` matches
any sequence of characters, so a starred pattern matches a name iff the
rest of the pattern matches some suffix of the name. -/
def globMatch : List Char → List Char → Bool
  | [], s => s.isEmpty
  | '*' :: ps, s => s.tails.any fun suf => globMatch ps suf
  | c :: ps, s =>
    match s with
    | [] => false
    | d :: ds => c = d && globMatch ps ds

/-- Whether one directory entry is matched by one `glob.glob` pattern:
pattern match per `globMatch`, with the `glob` rule that a name starting
with a dot is matched only by a pattern starting with a dot. -/
def globEntryMatch (pat n : List Char) : Bool :=
  (match n, pat with
    | '.' :: _, p :: _ => decide (p = '.')
    | '.' :: _, [] => false
    | _, _ => true) && globMatch pat n

/-- One `glob.glob` call: keep the directory entries matching `pat`. -/
def glob_glob (pat : List Char) (dirFiles : List (List Char)) : List (List Char) :=
  dirFiles.filter (globEntryMatch pat)

/-- The default `file_extensions` list of `process_directory`. -/
def default_file_extensions : List (List Char) :=
  [String.toList "*.jpg", String.toList "*.jpeg", String.toList "*.png",
   String.toList "*.bmp", String.toList "*.tiff", String.toList "*.tif"]

/-- The enumeration loop of `NotesOrganizer.process_directory`: for each
extension pattern, extend with the matches of the pattern and then with
the matches of its uppercased form (`ext.upper()`). -/
def find_image_paths (dirFiles : List (List Char))
    (file_extensions : Option (List (List Char))) : List (List Char) :=
  let exts := file_extensions.getD default_file_extensions
  exts.flatMap (fun ext =>
    glob_glob ext dirFiles ++ glob_glob (ext.map Char.toUpper) dirFiles)

/-- `NotesOrganizer.process_directory`, restricted to the part the
enumeration contract observes: `none` models the early `return {}` when
no image files are found; otherwise the enumerated paths (in order) and
their count (`total_images`) are returned. The downstream processing and
upload stages are covered by their own definitions. -/
def process_directory (dirFiles : List (List Char))
    (file_extensions : Option (List (List Char))) :
    Option (List (List Char) × Nat) :=
  let image_paths := find_image_paths dirFiles file_extensions
  if image_paths = [] then none
  else some (image_paths, image_paths.length)

/-! ### GoogleDriveManager (src/google_drive.py)

The remote store is a list of folders with opaque numeric ids, a name, an
optional parent id and a trashed flag, plus a fresh-id counter; the
service's listing order is the list order. Remote-call failures
(`HttpError`, caught and converted to `None` by the source) are modelled
by boolean oracles where a claim depends on them. -/

/-- One remote folder resource. -/
structure Folder where
  id : Nat
  name : String
  parent : Option Nat
  trashed : Bool
deriving DecidableEq, Repr

/-- The remote folder store plus the service's fresh-id supply. -/
structure DriveState where
  folders : List Folder
  nextId : Nat
deriving DecidableEq, Repr

/-- The query predicate of `GoogleDriveManager.find_folder`: name equality,
folder type (implicit: only folders are stored here), not trashed, and —
only when a parent id is supplied — containment in that parent. -/
def folderQueryMatches (name : String) (parent : Option Nat) (f : Folder) : Bool :=
  f.name = name && !f.trashed &&
    (match parent with
     | some p => f.parent = some p
     | none => true)

/-- `GoogleDriveManager.find_folder`: list the matching folders and return
the id of the first one, `none` when there is no match. (A remote-call
failure also yields `none` in the source; the success path is modelled.) -/
def find_folder (st : DriveState) (folder_name : String)
    (parent_folder_id : Option Nat) : Option Nat :=
  ((st.folders.filter (folderQueryMatches folder_name parent_folder_id)).head?).map
    (fun f => f.id)

/-- `GoogleDriveManager.create_folder`: unconditionally create the folder
(under the parent when one is supplied) and return its fresh id; `ok`
models the remote call succeeding — on `HttpError` the source returns
`None` and the store is unchanged. -/
def create_folder (st : DriveState) (ok : Bool) (folder_name : String)
    (parent_folder_id : Option Nat) : Option Nat × DriveState :=
  if ok then
    (some st.nextId,
     { folders := st.folders ++
         [{ id := st.nextId, name := folder_name,
            parent := parent_folder_id, trashed := false }],
       nextId := st.nextId + 1 })
  else (none, st)

/-- `GoogleDriveManager.get_or_create_folder`: `find_folder` first,
`create_folder` only on absence. -/
def get_or_create_folder (st : DriveState) (createOk : Bool)
    (folder_name : String) (parent_folder_id : Option Nat) :
    Option Nat × DriveState :=
  match find_folder st folder_name parent_folder_id with
  | some folder_id => (some folder_id, st)
  | none => create_folder st createOk folder_name parent_folder_id

/-- External environment of `organize_notes_by_subject`: which local
paths exist (`os.path.exists`), the remote result of uploading a given
local path (`some id` on success, `none` on `HttpError`), and whether
creating a folder of a given name succeeds remotely. -/
structure OrgEnv where
  pathExists : String → Bool
  uploadRes : String → Option Nat
  createOk : String → Bool

/-- `GoogleDriveManager.upload_file`: `None` when the local file does not
exist, otherwise the remote call's result. -/
def upload_file (env : OrgEnv) (file_path : String) : Option Nat :=
  if !env.pathExists file_path then none
  else env.uploadRes file_path

/-- `organized_files[subject].append(file_id)` with the
`if subject not in organized_files: organized_files[subject] = []`
guard, on an insertion-ordered association list. -/
def addManifestEntry : List (String × List Nat) → String → Nat →
    List (String × List Nat)
  | [], s, fid => [(s, [fid])]
  | (k, v) :: rest, s, fid =>
    if k = s then (k, v ++ [fid]) :: rest
    else (k, v) :: addManifestEntry rest s fid

/-- Dictionary lookup in the upload manifest, empty list when absent. -/
def manifestIds (m : List (String × List Nat)) (s : String) : List Nat :=
  ((m.find? (fun e => e.1 = s)).map (fun e => e.2)).getD []

/-- The loop body of `GoogleDriveManager.organize_notes_by_subject`,
with the accumulated manifest and drive state threaded explicitly:
skip entries with a falsy or non-existing `image_path`; resolve (or
create) the subject folder, skipping on failure; upload under a
timestamped name (the name does not affect the modelled state); record
the returned id under the subject iff it is non-null. -/
def organizeAux (env : OrgEnv) (base : Option Nat) :
    List ProcessingResult → DriveState → List (String × List Nat) →
    List (String × List Nat) × DriveState
  | [], st, m => (m, st)
  | note :: rest, st, m =>
    if note.image_path = "" || !env.pathExists note.image_path then
      organizeAux env base rest st m
    else
      match get_or_create_folder st (env.createOk note.subject) note.subject base with
      | (none, st') => organizeAux env base rest st' m
      | (some _, st') =>
        match upload_file env note.image_path with
        | none => organizeAux env base rest st' m
        | some file_id =>
          organizeAux env base rest st' (addManifestEntry m note.subject file_id)

/-- `GoogleDriveManager.organize_notes_by_subject`. -/
def organize_notes_by_subject (env : OrgEnv) (notes_data : List ProcessingResult)
    (base_folder_id : Option Nat) (st : DriveState) :
    List (String × List Nat) × DriveState :=
  organizeAux env base_folder_id notes_data st []

/-! ### Helper lemmas -/

/-- Membership in a stripped string implies membership in the original. -/
theorem mem_of_mem_pyStrip {c : Char} {s : List Char} (h : c ∈ pyStrip s) :
    c ∈ s := by
  unfold pyStrip at h
  rw [List.mem_reverse] at h
  have h1 := (List.dropWhile_sublist pyIsSpace).mem h
  rw [List.mem_reverse] at h1
  exact (List.dropWhile_sublist pyIsSpace).mem h1

/-- A string strips to empty iff all its characters are whitespace. -/
theorem pyStrip_eq_nil_iff (s : List Char) :
    pyStrip s = [] ↔ s.all pyIsSpace := by
  unfold pyStrip
  rw [List.reverse_eq_nil_iff, List.dropWhile_eq_nil_iff, List.all_eq_true]
  constructor
  · intro h x hx
    by_cases hd : x ∈ s.dropWhile pyIsSpace
    · exact h x (List.mem_reverse.mpr hd)
    · have hsplit := List.takeWhile_append_dropWhile pyIsSpace s
      rw [← hsplit] at hx
      rcases List.mem_append.mp hx with ht | hd2
      · exact List.mem_takeWhile_imp ht
      · exact absurd hd2 hd
  · intro h x hx
    exact h x ((List.dropWhile_sublist pyIsSpace).mem (List.mem_reverse.mp hx))

/-- The replaced-away character is absent from a single-character
replacement map's output, provided the replacement differs from it. -/
theorem not_mem_map_replace (x y : Char) (l : List Char) (hxy : y ≠ x) :
    x ∉ l.map (fun a => if a = x then y else a) := by
  intro hx
  rcases List.mem_map.mp hx with ⟨a, _, ha⟩
  by_cases h : a = x
  · rw [if_pos h] at ha; exact hxy ha
  · rw [if_neg h] at ha; exact h ha

/-- A character distinct from the replacement and absent from the input
stays absent through a single-character replacement map. -/
theorem not_mem_map_replace_other (x y c : Char) (l : List Char)
    (hc : c ∉ l) (hcy : c ≠ y) :
    c ∉ l.map (fun a => if a = x then y else a) := by
  intro hx
  rcases List.mem_map.mp hx with ⟨a, haI, ha⟩
  by_cases h : a = x
  · rw [if_pos h] at ha; exact hcy ha.symm
  · rw [if_neg h] at ha; subst ha; exact hc haI

/-! ### Claim theorems -/

/-- C1 counterexample: on the per-token confidence table `[0, 50]` the
code returns `50` (it keeps only strictly positive values), while the
arithmetic mean of all non-negative values is `25`. -/
theorem C1_counterexample :
    get_text_confidence (.ok [0, 50]) = 50 ∧
    ((((([0, 50] : List Int).filter (fun c => 0 ≤ c)).sum : ℤ) : ℚ) /
      ((([0, 50] : List Int).filter (fun c => 0 ≤ c)).length : ℚ)) = 25 := by
  constructor
  · simp only [get_text_confidence]
    norm_num [List.filter]
  · norm_num [List.filter]

/-- C1 (amended): `get_text_confidence` returns the arithmetic mean of
the strictly positive per-token confidence values (stated
multiplicatively: result times count equals sum), returns `0` when no
strictly positive token exists, and returns `0` when the image cannot
be read or processing fails. -/
theorem C1_confidence_mean (conf : List Int)
    (h : conf.filter (fun c => 0 < c) ≠ []) :
    get_text_confidence (.ok conf) *
        ((conf.filter (fun c => 0 < c)).length : ℚ) =
      (((conf.filter (fun c => 0 < c)).sum : ℤ) : ℚ) ∧
    get_text_confidence .unreadable = 0 ∧
    get_text_confidence .failure = 0 ∧
    (∀ cs : List Int, cs.filter (fun c => 0 < c) = [] →
      get_text_confidence (.ok cs) = 0) := by
  refine ⟨?_, rfl, rfl, ?_⟩
  · show (if conf.filter (fun c => 0 < c) ≠ [] then _ else _) * _ = _
    rw [if_pos h]
    have hlen : ((conf.filter (fun c => 0 < c)).length : ℚ) ≠ 0 :=
      Nat.cast_ne_zero.mpr (List.length_pos.mpr h).ne'
    field_simp
  · intro cs hcs
    show (if cs.filter (fun c => 0 < c) ≠ [] then _ else _) = 0
    rw [if_neg (by simpa using hcs)]

/-- C1 witness: the theorem applied to the confidence table
`[50, -1, 0, 30]`, whose strictly positive values are `[50, 30]`. -/
theorem C1_confidence_mean_witness :
    get_text_confidence (.ok [50, -1, 0, 30]) *
        ((([50, -1, 0, 30] : List Int).filter (fun c => 0 < c)).length : ℚ) =
      (((([50, -1, 0, 30] : List Int).filter (fun c => 0 < c)).sum : ℤ) : ℚ) :=
  (C1_confidence_mean [50, -1, 0, 30] (by decide)).1

/-- C9: `extract_text` yields the empty string on an unreadable or
missing image and on an engine exception, and `get_text_confidence`
yields `0` in the same situations; both are total functions of the
engine outcome, so no exception escapes this boundary. -/
theorem C9_failure_policy :
    extract_text .unreadable = [] ∧ extract_text .failure = [] ∧
    get_text_confidence .unreadable = 0 ∧ get_text_confidence .failure = 0 :=
  ⟨rfl, rfl, rfl, rfl⟩

/-- C10: the output of `clean_text` contains neither the digit `0` nor
the pipe character, and hence neither does any output of
`extract_text`. -/
theorem C10_no_zero_no_pipe (s : List Char) (o : ExtractOutcome) :
    ('0' ∉ clean_text s ∧ '|' ∉ clean_text s) ∧
    ('0' ∉ extract_text o ∧ '|' ∉ extract_text o) := by
  have key : ∀ t : List Char, '0' ∉ clean_text t ∧ '|' ∉ clean_text t := by
    intro t
    unfold clean_text
    set t1 := joinWithSpace (pySplit t) with ht1
    set t2 := t1.map (fun c => if c = '|' then 'I' else c) with ht2
    have h2 : '|' ∉ t2 := not_mem_map_replace '|' 'I' t1 (by decide)
    have h30 : '0' ∉ t2.map (fun c => if c = '0' then 'O' else c) :=
      not_mem_map_replace '0' 'O' t2 (by decide)
    have h3p : '|' ∉ t2.map (fun c => if c = '0' then 'O' else c) :=
      not_mem_map_replace_other '0' 'O' '|' t2 h2 (by decide)
    constructor
    · intro hmem
      exact h30 ((List.mem_filter.mp (mem_of_mem_pyStrip hmem)).1)
    · intro hmem
      exact h3p ((List.mem_filter.mp (mem_of_mem_pyStrip hmem)).1)
  refine ⟨key s, ?_⟩
  cases o with
  | unreadable => exact ⟨List.not_mem_nil _, List.not_mem_nil _⟩
  | failure => exact ⟨List.not_mem_nil _, List.not_mem_nil _⟩
  | ok raw => exact key raw

/-- C3: `process_single_image` returns the
`no_text_extracted` record (empty text, subject `unknown`, zero
confidences) exactly when the extracted text is empty or whitespace;
otherwise it returns a `success` record carrying the extracted text and
the classification outcome, whatever the classified subject is. -/
theorem C3_process_single_image (path : String) (txt : List Char)
    (conf : ℚ) (cls : String × ℚ) :
    ((process_single_image path txt conf cls).status = "no_text_extracted" ↔
      txt.all pyIsSpace = true) ∧
    (txt.all pyIsSpace = true →
      process_single_image path txt conf cls =
        { image_path := path, text := [], subject := "unknown",
          confidence := 0, ocr_confidence := 0,
          status := "no_text_extracted" }) ∧
    (¬ txt.all pyIsSpace = true →
      process_single_image path txt conf cls =
        { image_path := path, text := txt, subject := cls.1,
          confidence := cls.2, ocr_confidence := conf,
          status := "success" }) := by
  by_cases h : pyStrip txt = []
  · have hall : txt.all pyIsSpace = true := (pyStrip_eq_nil_iff txt).mp h
    refine ⟨?_, fun _ => ?_, fun hc => absurd hall hc⟩
    · simp [process_single_image, h, hall]
    · simp [process_single_image, h]
  · have hall : ¬ txt.all pyIsSpace = true :=
      fun hc => h ((pyStrip_eq_nil_iff txt).mpr hc)
    refine ⟨?_, fun hc => absurd hc hall, fun _ => ?_⟩
    · simp only [process_single_image, if_neg h]
      constructor
      · intro hs; exact absurd hs (by decide)
      · intro hc; exact absurd hc hall
    · simp [process_single_image, h]

/-- C3 witness: on whitespace-only extracted text the no-text record is
returned. -/
theorem C3_process_single_image_witness :
    process_single_image "a.jpg" [' ', '\t'] 5 ("mathematics", 1/2) =
      { image_path := "a.jpg", text := [], subject := "unknown",
        confidence := 0, ocr_confidence := 0,
        status := "no_text_extracted" } :=
  (C3_process_single_image "a.jpg" [' ', '\t'] 5 ("mathematics", 1/2)).2.1
    (by decide)

/-- C4: when the model is loaded, the text does not strip to empty and
its preprocessed form has at least 10 characters, `classify_text`
returns the model's top label with its score precisely when the top
score reaches the threshold (a score exactly equal to the threshold is
accepted) and otherwise returns `unknown` with that same top score. -/
theorem C4_threshold_boundary (txt : List Char) (t : ℚ) (lbl : String)
    (s : ℚ) (hstrip : pyStrip txt ≠ [])
    (hlen : 10 ≤ (preprocess_text txt).length) :
    (classify_text true txt t (.ok lbl s) =
      if t ≤ s then (lbl, s) else ("unknown", s)) ∧
    (s = t → classify_text true txt t (.ok lbl s) = (lbl, s)) := by
  have hmain : classify_text true txt t (.ok lbl s) =
      if t ≤ s then (lbl, s) else ("unknown", s) := by
    simp only [classify_text, Bool.not_true, Bool.false_or,
      decide_eq_true_eq, if_neg hstrip, if_neg (Nat.not_lt.mpr hlen),
      ge_iff_le]
  refine ⟨hmain, fun hst => ?_⟩
  rw [hmain, if_pos (le_of_eq hst.symm)]

/-- C4 witness: the theorem applied at a 19-character preprocessed text
with the score exactly equal to the threshold; the top label is
accepted. -/
theorem C4_threshold_boundary_witness :
    classify_text true (String.toList "mathematics algebra") (1/2)
      (.ok "mathematics" (1/2)) = ("mathematics", 1/2) :=
  (C4_threshold_boundary (String.toList "mathematics algebra") (1/2)
    "mathematics" (1/2) (by decide) (by decide)).2 rfl

/-- C5: `classify_text` returns `("unknown", 0)` whenever the model
failed to initialise, and whenever the preprocessed text has fewer than
10 characters — in the latter case uniformly in the model oracle, i.e.
without invoking the model. -/
theorem C5_short_text_or_no_model (txt : List Char) (t : ℚ)
    (m : ModelOutcome) :
    classify_text false txt t m = ("unknown", 0) ∧
    ((preprocess_text txt).length < 10 →
      ∀ (loaded : Bool) (m2 : ModelOutcome),
        classify_text loaded txt t m2 = ("unknown", 0)) := by
  constructor
  · simp [classify_text]
  · intro hlen loaded m2
    cases loaded with
    | false => simp [classify_text]
    | true =>
      by_cases hs : pyStrip txt = []
      · simp [classify_text, hs]
      · simp [classify_text, hs, if_pos hlen]

/-- C5 witness: the theorem applied to the text `hi`, whose preprocessed
form is empty, with a high-scoring model outcome that is ignored. -/
theorem C5_short_text_or_no_model_witness :
    classify_text true (String.toList "hi") (3/10)
      (.ok "mathematics" (9/10)) = ("unknown", 0) :=
  (C5_short_text_or_no_model (String.toList "hi") (3/10)
    (.ok "mathematics" (9/10))).2 (by decide) true (.ok "mathematics" (9/10))

/-- C2 counterexample: on a one-element list whose entry has
status `error` but subject `mathematics`, there are `K = 0` successes
(so the claim predicts `successful_classifications = 0`), yet the code
reports `1`: the count ranges over all results, not only successes. -/
theorem C2_counterexample :
    (([{ image_path := "p", text := ['t'], subject := "mathematics",
         confidence := 0, ocr_confidence := 0, status := "error" }] :
        List ProcessingResult).filter
      (fun r => r.status = "success")).length = 0 ∧
    (get_processing_summary
      [{ image_path := "p", text := ['t'], subject := "mathematics",
         confidence := 0, ocr_confidence := 0,
         status := "error" }]).successful_classifications = 1 := by
  constructor
  · decide
  · rfl

/-- C2 (amended): `get_processing_summary` of the empty list is the
zeroed/empty summary; on any list it reports `total_images = N` and
`successful_extractions = K`; `successful_classifications` counts the
results with subject distinct from `unknown` across the whole list,
which coincides with the claim's `J` (the count among the successes)
whenever every non-success result carries subject `unknown`, as the
pipeline produces. -/
theorem C2_summary_statistics (rs : List ProcessingResult)
    (hpipe : ∀ r ∈ rs, r.status ≠ "success" → r.subject = "unknown") :
    get_processing_summary [] =
      { total_images := 0, successful_extractions := 0,
        successful_classifications := 0, subject_distribution := [],
        average_ocr_confidence := 0,
        average_classification_confidence := 0 } ∧
    (get_processing_summary rs).total_images = rs.length ∧
    (get_processing_summary rs).successful_extractions =
      (rs.filter (fun r => r.status = "success")).length ∧
    (get_processing_summary rs).successful_classifications =
      (rs.filter (fun r =>
        r.status = "success" ∧ r.subject ≠ "unknown")).length := by
  refine ⟨rfl, rfl, rfl, ?_⟩
  show (rs.filter (fun r => r.subject ≠ "unknown")).length = _
  congr 1
  apply List.filter_congr
  intro r hr
  by_cases hu : r.subject = "unknown"
  · simp [hu]
  · have hs : r.status = "success" := by
      by_contra hns
      exact hu (hpipe r hr hns)
    simp [hu, hs]

/-- C2 witness: the theorem applied to a two-element pipeline-shaped
list with one success classified as `mathematics` and one no-text
failure. -/
theorem C2_summary_statistics_witness :
    (get_processing_summary
      [{ image_path := "a", text := ['t'], subject := "mathematics",
         confidence := 1, ocr_confidence := 1, status := "success" },
       { image_path := "b", text := [], subject := "unknown",
         confidence := 0, ocr_confidence := 0,
         status := "no_text_extracted" }]).successful_classifications =
      (([{ image_path := "a", text := ['t'], subject := "mathematics",
           confidence := 1, ocr_confidence := 1, status := "success" },
         { image_path := "b", text := [], subject := "unknown",
           confidence := 0, ocr_confidence := 0,
           status := "no_text_extracted" }] :
          List ProcessingResult).filter
        (fun r => r.status = "success" ∧ r.subject ≠ "unknown")).length :=
  (C2_summary_statistics _ (by decide)).2.2.2

/-- C6 counterexample: with the default extension list, the enumeration
misses the mixed-case name `a.Jpg`, although that name matches the
extension `.jpg` case-insensitively (its lowercasing matches the pattern
`*.jpg`); matching is not case-insensitive, only the pattern as written
and its fully uppercased form are tried. -/
theorem C6_counterexample :
    find_image_paths [String.toList "a.Jpg"] none = [] ∧
    globMatch (String.toList "*.jpg")
      ((String.toList "a.Jpg").map Char.toLower) = true := by
  constructor
  · decide
  · decide

/-- C6 (amended): `find_image_paths` enumerates exactly the directory
entries matched by one of the configured patterns as written or by its
fully uppercased form (so only the all-lowercase and all-uppercase
variants of an extension are found, not arbitrary mixed case); the
default pattern list is `*.jpg`, `*.jpeg`, `*.png`, `*.bmp`, `*.tiff`,
`*.tif`; and `process_directory` returns the empty result exactly when
no entry matches. -/
theorem C6_directory_enumeration (dirFiles : List (List Char))
    (exts : List (List Char)) (n : List Char) :
    (n ∈ find_image_paths dirFiles (some exts) ↔
      n ∈ dirFiles ∧ ∃ e ∈ exts,
        (globEntryMatch e n = true ∨
         globEntryMatch (e.map Char.toUpper) n = true)) ∧
    find_image_paths dirFiles none =
      find_image_paths dirFiles (some default_file_extensions) ∧
    (process_directory dirFiles (some exts) = none ↔
      find_image_paths dirFiles (some exts) = []) := by
  refine ⟨?_, rfl, ?_⟩
  · simp only [find_image_paths, Option.getD_some, List.mem_flatMap,
      List.mem_append, glob_glob, List.mem_filter]
    constructor
    · rintro ⟨e, he, ⟨hn, hm⟩ | ⟨hn, hm⟩⟩
      · exact ⟨hn, e, he, Or.inl hm⟩
      · exact ⟨hn, e, he, Or.inr hm⟩
    · rintro ⟨hn, e, he, hm | hm⟩
      · exact ⟨e, he, Or.inl ⟨hn, hm⟩⟩
      · exact ⟨e, he, Or.inr ⟨hn, hm⟩⟩
  · simp only [process_directory]
    by_cases h : find_image_paths dirFiles (some exts) = []
    · simp [h]
    · simp [h]

/-- C6 witness: the characterization applied to a concrete directory:
`b.PNG` is enumerated because it matches the uppercased form of the
configured pattern `*.png`. -/
theorem C6_directory_enumeration_witness :
    String.toList "b.PNG" ∈
      find_image_paths [String.toList "b.PNG"]
        (some default_file_extensions) :=
  (C6_directory_enumeration [String.toList "b.PNG"]
      default_file_extensions (String.toList "b.PNG")).1.mpr
    ⟨by decide, String.toList "*.png", by decide, Or.inr (by decide)⟩

/-! ### Drive-store lemmas -/

/-- A failed lookup means the query matched no folder at all. -/
theorem filter_eq_nil_of_find_folder_none (st : DriveState) (name : String)
    (parent : Option Nat)
    (h : find_folder st name parent = none) :
    st.folders.filter (folderQueryMatches name parent) = [] := by
  unfold find_folder at h
  rcases hh : (st.folders.filter (folderQueryMatches name parent)).head? with _ | f
  · exact List.head?_eq_none_iff.mp hh
  · rw [hh] at h
    simp at h

/-- After appending a fresh folder carrying the queried name and parent
to a store in which the query had no match, the lookup returns the fresh
folder's id. -/
theorem find_folder_append_new (st : DriveState) (name : String)
    (parent : Option Nat)
    (h : find_folder st name parent = none) :
    find_folder
      { folders := st.folders ++
          [{ id := st.nextId, name := name, parent := parent,
             trashed := false }],
        nextId := st.nextId + 1 } name parent = some st.nextId := by
  unfold find_folder
  rw [List.filter_append, filter_eq_nil_of_find_folder_none st name parent h]
  cases parent with
  | none => simp [folderQueryMatches]
  | some p => simp [folderQueryMatches]

/-- C7: with the remote calls succeeding and no interleaving mutation,
two sequential `get_or_create_folder` calls with the same name and
parent return the same id (the first call's id is found by the second),
the second call does not change the store, and the returned id is
non-null. -/
theorem C7_get_or_create_idempotent (st : DriveState) (name : String)
    (parent : Option Nat) :
    ((get_or_create_folder st true name parent).1).isSome = true ∧
    (get_or_create_folder
        (get_or_create_folder st true name parent).2 true name parent).1 =
      (get_or_create_folder st true name parent).1 ∧
    (get_or_create_folder
        (get_or_create_folder st true name parent).2 true name parent).2 =
      (get_or_create_folder st true name parent).2 := by
  cases hf : find_folder st name parent with
  | some fid =>
    simp [get_or_create_folder, hf]
  | none =>
    have hfind2 := find_folder_append_new st name parent hf
    simp [get_or_create_folder, hf, create_folder, hfind2]

/-- Recording an id under a subject appends it to that subject's list
and leaves every other subject's list unchanged. -/
theorem manifestIds_addManifestEntry (m : List (String × List Nat))
    (subj s : String) (fid : Nat) :
    manifestIds (addManifestEntry m subj fid) s =
      if subj = s then manifestIds m s ++ [fid] else manifestIds m s := by
  induction m with
  | nil =>
    by_cases h : subj = s
    · simp [addManifestEntry, manifestIds, List.find?, h]
    · simp [addManifestEntry, manifestIds, List.find?, h]
  | cons kv rest ih =>
    obtain ⟨k, v⟩ := kv
    by_cases hk : k = subj
    · subst hk
      by_cases hs : k = s
      · subst hs
        simp [addManifestEntry, manifestIds, List.find?]
      · simp [addManifestEntry, manifestIds, List.find?, hs]
    · by_cases hs : k = s
      · subst hs
        have hsubj : subj ≠ k := fun h => hk h.symm
        simp [addManifestEntry, manifestIds, List.find?, hk, hsubj]
      · simp only [addManifestEntry, if_neg hk]
        simp [manifestIds, List.find?, hs] at ih ⊢
        exact ih

/-- A successful `get_or_create_folder` leaves the returned id
retrievable: a subsequent lookup with the same name and parent finds it. -/
theorem find_folder_after_get_or_create (st : DriveState) (ok : Bool)
    (name : String) (parent : Option Nat) (fid : Nat) (st2 : DriveState)
    (h : get_or_create_folder st ok name parent = (some fid, st2)) :
    find_folder st2 name parent = some fid := by
  unfold get_or_create_folder at h
  cases hf : find_folder st name parent with
  | some f =>
    rw [hf] at h
    obtain ⟨h1, h2⟩ := Prod.mk.injEq .. ▸ h
    simp only [Option.some.injEq] at h1
    rw [← h2, hf, h1]
  | none =>
    rw [hf] at h
    unfold create_folder at h
    cases ok with
    | false => simp at h
    | true =>
      simp only [if_pos] at h
      obtain ⟨h1, h2⟩ := Prod.mk.injEq .. ▸ h
      simp only [Option.some.injEq] at h1
      rw [← h2, ← h1]
      exact find_folder_append_new st name parent hf

/-- `get_or_create_folder` only ever adds a folder carrying the
requested name, so lookups for any other name are unaffected. -/
theorem find_folder_get_or_create_other (st : DriveState) (ok : Bool)
    (name : String) (parent : Option Nat) (name2 : String)
    (parent2 : Option Nat) (hne : name2 ≠ name) :
    find_folder (get_or_create_folder st ok name parent).2 name2 parent2 =
      find_folder st name2 parent2 := by
  unfold get_or_create_folder
  cases hf : find_folder st name parent with
  | some f => rfl
  | none =>
    unfold create_folder
    cases ok with
    | false => rfl
    | true =>
      simp only [if_pos]
      unfold find_folder
      rw [List.filter_append]
      have : folderQueryMatches name2 parent2
          { id := st.nextId, name := name, parent := parent,
            trashed := false } = false := by
        simp [folderQueryMatches, Ne.symm hne]
      simp [this]

/-- `get_or_create_folder` returns a non-null id exactly when the folder
already exists or creation succeeds remotely. -/
theorem get_or_create_isSome_iff (st : DriveState) (ok : Bool)
    (name : String) (parent : Option Nat) :
    ((get_or_create_folder st ok name parent).1).isSome = true ↔
      ((find_folder st name parent).isSome = true ∨ ok = true) := by
  unfold get_or_create_folder
  cases hf : find_folder st name parent with
  | some f => simp
  | none =>
    unfold create_folder
    cases ok with
    | false => simp
    | true => simp

/-- A `get_or_create_folder` call that returns a null id leaves the
store unchanged: the folder was absent and creation failed. -/
theorem get_or_create_none (st : DriveState) (ok : Bool) (name : String)
    (parent : Option Nat) (st2 : DriveState)
    (h : get_or_create_folder st ok name parent = (none, st2)) :
    st2 = st ∧ find_folder st name parent = none ∧ ok = false := by
  unfold get_or_create_folder at h
  cases hf : find_folder st name parent with
  | some f => rw [hf] at h; simp at h
  | none =>
    rw [hf] at h
    unfold create_folder at h
    cases ok with
    | true => simp at h
    | false =>
      simp only [Bool.false_eq_true, if_false] at h
      exact ⟨(Prod.mk.injEq .. ▸ h).2.symm, rfl, rfl⟩

/-- Loop invariant of `organize_notes_by_subject`: after running the
loop from any intermediate manifest `m` and store `st`, the ids recorded
under a subject `s` are the ids already in `m` followed by, in order,
exactly the successful upload results of the remaining entries that have
a non-empty existing image path, whose subject folder resolves (it is
already present or its creation succeeds), and whose subject is `s`. -/
theorem organizeAux_manifestIds (env : OrgEnv) (base : Option Nat)
    (notes : List ProcessingResult) :
    ∀ (st : DriveState) (m : List (String × List Nat)) (s : String),
    manifestIds (organizeAux env base notes st m).1 s =
      manifestIds m s ++
        ((notes.filter (fun n =>
            n.image_path ≠ "" ∧ env.pathExists n.image_path = true ∧
            ((find_folder st n.subject base).isSome = true ∨
              env.createOk n.subject = true) ∧
            (env.uploadRes n.image_path).isSome = true ∧
            n.subject = s)).map
          (fun n => (env.uploadRes n.image_path).getD 0)) := by
  induction notes with
  | nil => intro st m s; simp [organizeAux]
  | cons note rest ih =>
    intro st m s
    by_cases hskip :
        (note.image_path = "" || !env.pathExists note.image_path) = true
    · have hrec : organizeAux env base (note :: rest) st m =
          organizeAux env base rest st m := by
        rw [organizeAux, if_pos hskip]
      have hpred : ¬(note.image_path ≠ "" ∧
          env.pathExists note.image_path = true ∧
          ((find_folder st note.subject base).isSome = true ∨
            env.createOk note.subject = true) ∧
          (env.uploadRes note.image_path).isSome = true ∧
          note.subject = s) := by
        rcases Bool.or_eq_true .. ▸ hskip with hp | hp
        · exact fun hc => hc.1 (of_decide_eq_true hp)
        · intro hc
          rw [Bool.not_eq_true'] at hp
          rw [hc.2.1] at hp
          exact Bool.true_eq_false ▸ hp
      rw [hrec, ih st m s]
      simp [List.filter_cons]
      rw [if_neg hpred]
    · have hpath : ¬(note.image_path = "") := by
        intro hc
        exact hskip (by rw [hc]; simp)
      have hex : env.pathExists note.image_path = true := by
        by_contra hc
        rw [Bool.not_eq_true] at hc
        exact hskip (by rw [hc]; simp)
      rcases hg : get_or_create_folder st (env.createOk note.subject)
          note.subject base with ⟨r, st2⟩
      cases r with
      | none =>
        obtain ⟨hst2, hfnone, hok⟩ :=
          get_or_create_none st (env.createOk note.subject) note.subject
            base st2 hg
        rw [hst2] at hg
        have hrec : organizeAux env base (note :: rest) st m =
            organizeAux env base rest st m := by
          rw [organizeAux, if_neg hskip, hg]
        have hpred : ¬(note.image_path ≠ "" ∧
            env.pathExists note.image_path = true ∧
            ((find_folder st note.subject base).isSome = true ∨
              env.createOk note.subject = true) ∧
            (env.uploadRes note.image_path).isSome = true ∧
            note.subject = s) := by
          rintro ⟨-, -, hres, -, -⟩
          rcases hres with hres | hres
          · rw [hfnone] at hres; exact absurd hres (by simp)
          · rw [hok] at hres; exact Bool.false_eq_true ▸ hres
        rw [hrec, ih st m s]
        simp [List.filter_cons]
        rw [if_neg hpred]
      | some fid =>
        have hres : (find_folder st note.subject base).isSome = true ∨
            env.createOk note.subject = true :=
          (get_or_create_isSome_iff st (env.createOk note.subject)
            note.subject base).mp (by rw [hg]; rfl)
        have hfind2 : find_folder st2 note.subject base = some fid :=
          find_folder_after_get_or_create st (env.createOk note.subject)
            note.subject base fid st2 hg
        have hkey : ∀ s2 : String,
            ((find_folder st2 s2 base).isSome = true ∨
              env.createOk s2 = true) ↔
            ((find_folder st s2 base).isSome = true ∨
              env.createOk s2 = true) := by
          intro s2
          by_cases h2 : s2 = note.subject
          · subst h2
            constructor
            · intro _; exact hres
            · intro _; exact Or.inl (by rw [hfind2]; rfl)
          · have hoth := find_folder_get_or_create_other st
              (env.createOk note.subject) note.subject base s2 base h2
            rw [hg] at hoth
            rw [hoth]
        have hfiltcong :
            rest.filter (fun n =>
              n.image_path ≠ "" ∧ env.pathExists n.image_path = true ∧
              ((find_folder st2 n.subject base).isSome = true ∨
                env.createOk n.subject = true) ∧
              (env.uploadRes n.image_path).isSome = true ∧
              n.subject = s) =
            rest.filter (fun n =>
              n.image_path ≠ "" ∧ env.pathExists n.image_path = true ∧
              ((find_folder st n.subject base).isSome = true ∨
                env.createOk n.subject = true) ∧
              (env.uploadRes n.image_path).isSome = true ∧
              n.subject = s) := by
          apply List.filter_congr
          intro n _
          apply decide_eq_decide.mpr
          constructor
          · rintro ⟨h1, h2, h3, h4, h5⟩
            exact ⟨h1, h2, (hkey n.subject).mp h3, h4, h5⟩
          · rintro ⟨h1, h2, h3, h4, h5⟩
            exact ⟨h1, h2, (hkey n.subject).mpr h3, h4, h5⟩
        have hup : upload_file env note.image_path =
            env.uploadRes note.image_path := by
          unfold upload_file
          rw [hex]
          rfl
        cases hu : env.uploadRes note.image_path with
        | none =>
          have hrec : organizeAux env base (note :: rest) st m =
              organizeAux env base rest st2 m := by
            rw [organizeAux, if_neg hskip, hg]
            rw [hup, hu]
          have hpred : ¬(note.image_path ≠ "" ∧
              env.pathExists note.image_path = true ∧
              ((find_folder st note.subject base).isSome = true ∨
                env.createOk note.subject = true) ∧
              (env.uploadRes note.image_path).isSome = true ∧
              note.subject = s) := by
            rintro ⟨-, -, -, h4, -⟩
            rw [hu] at h4
            exact absurd h4 (by simp)
          rw [hrec, ih st2 m s, hfiltcong]
          simp [List.filter_cons]
          rw [if_neg hpred]
        | some fid2 =>
          have hrec : organizeAux env base (note :: rest) st m =
              organizeAux env base rest st2
                (addManifestEntry m note.subject fid2) := by
            rw [organizeAux, if_neg hskip, hg]
            rw [hup, hu]
          rw [hrec, ih st2 (addManifestEntry m note.subject fid2) s,
            hfiltcong, manifestIds_addManifestEntry]
          by_cases hsub : note.subject = s
          · have hpred : (note.image_path ≠ "" ∧
                env.pathExists note.image_path = true ∧
                ((find_folder st note.subject base).isSome = true ∨
                  env.createOk note.subject = true) ∧
                (env.uploadRes note.image_path).isSome = true ∧
                note.subject = s) :=
              ⟨hpath, hex, hres, by rw [hu]; rfl, hsub⟩
            rw [if_pos hsub]
            simp only [List.filter_cons]
            rw [if_pos (decide_eq_true hpred)]
            simp [hu, List.append_assoc]
          · have hpred : ¬(note.image_path ≠ "" ∧
                env.pathExists note.image_path = true ∧
                ((find_folder st note.subject base).isSome = true ∨
                  env.createOk note.subject = true) ∧
                (env.uploadRes note.image_path).isSome = true ∧
                note.subject = s) := by
              rintro ⟨-, -, -, -, h5⟩
              exact hsub h5
            rw [if_neg hsub]
            simp [List.filter_cons]
            rw [if_neg hpred]

/-- C8: for every list of note records, the mapping returned by
`organize_notes_by_subject` contains under each subject `s` exactly the
non-null remote ids returned by the successful upload calls made during
that invocation for the entries classified as `s` — those whose image
path is non-empty and exists at call time, whose subject folder resolves
(already present or successfully created), and whose upload returns a
non-null id — in order; entries whose image path does not exist
contribute no manifest entry. The loop invariant behind this is
`organizeAux_manifestIds`, which holds throughout the iteration. -/
theorem C8_manifest_exact (env : OrgEnv) (notes : List ProcessingResult)
    (base : Option Nat) (st : DriveState) (s : String) :
    manifestIds (organize_notes_by_subject env notes base st).1 s =
      ((notes.filter (fun n =>
          n.image_path ≠ "" ∧ env.pathExists n.image_path = true ∧
          ((find_folder st n.subject base).isSome = true ∨
            env.createOk n.subject = true) ∧
          (env.uploadRes n.image_path).isSome = true ∧
          n.subject = s)).map
        (fun n => (env.uploadRes n.image_path).getD 0)) := by
  unfold organize_notes_by_subject
  rw [organizeAux_manifestIds env base notes st [] s]
  rfl

end NotesOrg
